import Mathlib

/-!
Shallow embedding of the Daily-Market-Brief signal pipeline:
bronze ingestion (`ingest_prices`), silver builds (`build_silver_price_daily`,
`build_silver_universe`) and the signal engine (`compute_signals`,
`resolve_run_date`).  Dates are modelled as `Nat` (only their order matters),
SQL numerics and pandas floats as `ℚ`, SQL NULL as `Option`.  The engine's
`STDDEV_POP` is the square root of the population variance, computed by the
engine in floating point; the embedding keeps the variance exact and takes the
square-root map as a parameter `sqrtA`, so every theorem quantifies over it.
-/

namespace DMB

/-- One curated (silver) daily price bar; natural key `(symbol, date)`. -/
structure PriceBar where
  symbol : String
  date : Nat
  open_ : ℚ
  high : ℚ
  low : ℚ
  close : ℚ
  adj_close : ℚ
  volume : ℚ
deriving DecidableEq

/-- One raw (bronze) price row: a bar plus the ingestion batch key that the
`ingestion_date=...` parquet partition carries. -/
structure RawPriceRow where
  bar : PriceBar
  ingestion_date : Nat
deriving DecidableEq

/-- One raw (bronze) universe snapshot row, as read from
`bronze/universe/ingestion_date=*.parquet`. -/
structure RawUniverseRow where
  symbol : String
  name : String
  sector : String
  subSector : String
  ingestion_date : Nat
deriving DecidableEq

/-- One curated (silver) universe row produced by `build_silver_universe`. -/
structure UniverseRow where
  symbol : String
  company_name : String
  sector : String
  sub_sector : String
  is_active : Bool
deriving DecidableEq

/-- The configuration fields `compute_signals`/`resolve_run_date` read. -/
structure Config where
  run_date : Option Nat
  min_abs_ret_z : ℚ
  min_rvol : ℚ
deriving DecidableEq

/-- Natural key of a raw price row: `(symbol, date)`. -/
def keyOf (r : RawPriceRow) : String × Nat := (r.bar.symbol, r.bar.date)

/-- Pick the row from the later ingestion batch; on equal keys keep the
left argument (the engine's tie order among equal `ingestion_date` is
unspecified; no claim depends on it). -/
def laterIngestion (a b : RawPriceRow) : RawPriceRow :=
  if a.ingestion_date < b.ingestion_date then b else a

/-- The row `ROW_NUMBER() OVER (PARTITION BY symbol, date ORDER BY
ingestion_date DESC) = 1` keeps for the key `k`: the member of the key's
group with the greatest `ingestion_date`. -/
def bestForKey (raws : List RawPriceRow) (k : String × Nat) : Option RawPriceRow :=
  match raws.filter (fun r => keyOf r = k) with
  | [] => none
  | g :: gs => some (gs.foldl laterIngestion g)

/-- `build_silver_price_daily` (src/core/silver_transform/build_price_daily.py):
read every bronze batch, deduplicate by `(symbol, date)` keeping the row with
the latest `ingestion_date`. -/
def build_silver_price_daily (raws : List RawPriceRow) : List PriceBar :=
  ((raws.map keyOf).dedup).filterMap (fun k => (bestForKey raws k).map (·.bar))

/-- `build_silver_universe` (src/core/silver_transform/build_universe.py):
`SELECT symbol, name AS company_name, sector, subSector AS sub_sector,
TRUE AS is_active FROM read_parquet('bronze/universe/ingestion_date=*.parquet')`
— the plain union of every snapshot, no dedup and no latest-snapshot filter. -/
def build_silver_universe (raws : List RawUniverseRow) : List UniverseRow :=
  raws.map (fun r =>
    { symbol := r.symbol, company_name := r.name, sector := r.sector,
      sub_sector := r.subSector, is_active := true })

/-- Maximum over a list of `Nat` (NULL = `none` on the empty list). -/
def maxN (xs : List Nat) : Option Nat :=
  xs.foldl (fun acc x =>
    match acc with
    | none => some x
    | some m => some (max m x)) none

/-- The greatest ingestion key among universe snapshot rows. -/
def latestUniverseIngestion (raws : List RawUniverseRow) : Option Nat :=
  maxN (raws.map (·.ingestion_date))

/-! ### SQL window frames and aggregates -/

/-- The frame `ROWS BETWEEN a PRECEDING AND b PRECEDING` at row index `i`
(`b = 0` encodes `CURRENT ROW`): the elements at indices `i - a .. i - b`. -/
def rowsBetween (a b i : Nat) (xs : List ℚ) : List ℚ :=
  (xs.take (i + 1 - b)).drop (i - a)

/-- The at-most-`n` elements immediately preceding index `i`
(indices `i - n .. i - 1`); this is how the spec phrases the windows. -/
def precedingBars (n i : Nat) (xs : List ℚ) : List ℚ :=
  (xs.take i).drop (i - n)

/-- Sum of a list of rationals. -/
def qsum (xs : List ℚ) : ℚ := xs.foldl (· + ·) 0

/-- SQL `AVG`: NULL on the empty frame. -/
def avgAgg (xs : List ℚ) : Option ℚ :=
  if xs = [] then none else some (qsum xs / xs.length)

/-- Population variance of the frame; SQL `STDDEV_POP` is its square root
(NULL on the empty frame). -/
def varPopAgg (xs : List ℚ) : Option ℚ :=
  if xs = [] then none
  else some (qsum (xs.map (fun x => (x - qsum xs / xs.length) ^ 2)) / xs.length)

/-- SQL `MAX`: NULL on the empty frame. -/
def maxAgg (xs : List ℚ) : Option ℚ :=
  xs.foldl (fun acc x =>
    match acc with
    | none => some x
    | some m => some (max m x)) none

/-- SQL `MIN`: NULL on the empty frame. -/
def minAgg (xs : List ℚ) : Option ℚ :=
  xs.foldl (fun acc x =>
    match acc with
    | none => some x
    | some m => some (min m x)) none

/-- Insert into a sorted list of rationals (ascending). -/
def insertQ (x : ℚ) : List ℚ → List ℚ
  | [] => [x]
  | y :: ys => if x ≤ y then x :: y :: ys else y :: insertQ x ys

/-- Insertion sort, ascending. -/
def sortQ (xs : List ℚ) : List ℚ := xs.foldr insertQ []

/-- SQL `MEDIAN` on numerics: middle value, or the average of the two middle
values on an even count; NULL on the empty frame. -/
def medianAgg (xs : List ℚ) : Option ℚ :=
  let s := sortQ xs
  if s.length = 0 then none
  else if s.length % 2 = 1 then s.get? (s.length / 2)
  else
    match s.get? (s.length / 2 - 1), s.get? (s.length / 2) with
    | some a, some b => some ((a + b) / 2)
    | _, _ => none

/-! ### The `base` CTE of the signals query -/

/-- One row of the `base` CTE in `compute_signals` (windowed statistics over a
single symbol partition ordered by date). `close_60d_var` carries the exact
population variance whose engine square root is the `close_60d_std` column. -/
structure BaseRow where
  symbol : String
  date : Nat
  open_ : ℚ
  high : ℚ
  low : ℚ
  close : ℚ
  volume : ℚ
  close_d2 : Option ℚ
  volume_d2 : Option ℚ
  sma_50 : Option ℚ
  sma_200 : Option ℚ
  close_60d_mean : Option ℚ
  close_60d_var : Option ℚ
  vol_60d_median : Option ℚ
  high_252d_max : Option ℚ
  low_252d_min : Option ℚ
deriving DecidableEq

/-- The `base` CTE row at index `i` of the (date-ordered) partition `ps`,
with the exact frames of the source SQL:
`LAG` for `close_d2`/`volume_d2`, `49/199 PRECEDING AND CURRENT ROW` for the
SMAs, `59 PRECEDING AND 1 PRECEDING` for the 60-day statistics and
`251 PRECEDING AND 1 PRECEDING` for the 52-week extrema. -/
def mkBaseRow (ps : List PriceBar) (i : Nat) (p : PriceBar) : BaseRow :=
  let closes := ps.map (·.close)
  let vols := ps.map (·.volume)
  let highs := ps.map (·.high)
  let lows := ps.map (·.low)
  { symbol := p.symbol, date := p.date, open_ := p.open_, high := p.high,
    low := p.low, close := p.close, volume := p.volume,
    close_d2 := if i = 0 then none else closes.get? (i - 1),
    volume_d2 := if i = 0 then none else vols.get? (i - 1),
    sma_50 := avgAgg (rowsBetween 49 0 i closes),
    sma_200 := avgAgg (rowsBetween 199 0 i closes),
    close_60d_mean := avgAgg (rowsBetween 59 1 i closes),
    close_60d_var := varPopAgg (rowsBetween 59 1 i closes),
    vol_60d_median := medianAgg (rowsBetween 59 1 i vols),
    high_252d_max := maxAgg (rowsBetween 251 1 i highs),
    low_252d_min := minAgg (rowsBetween 251 1 i lows) }

/-- All `base` CTE rows of one symbol partition. -/
def baseRows (ps : List PriceBar) : List BaseRow :=
  (List.range ps.length).filterMap (fun i => (ps.get? i).map (mkBaseRow ps i))

/-! ### The `returns` CTE and the outer SELECT -/

/-- `(close - close_d2) / NULLIF(close_d2, 0)`: NULL when the previous close
is missing (first row) or zero. -/
def ret1d (close : ℚ) (close_d2 : Option ℚ) : Option ℚ :=
  match close_d2 with
  | none => none
  | some c2 => if c2 = 0 then none else some ((close - c2) / c2)

/-- `CASE WHEN close_60d_std IS NULL OR close_60d_std = 0 THEN NULL
ELSE (close - close_60d_mean) / close_60d_std END`. -/
def zFromCase (close : ℚ) (mean std : Option ℚ) : Option ℚ :=
  match std with
  | none => none
  | some s =>
    if s = 0 then none
    else
      match mean with
      | none => none
      | some m => some ((close - m) / s)

/-- `CASE WHEN vol_60d_median IS NULL OR vol_60d_median = 0 THEN NULL
ELSE volume / vol_60d_median END`. -/
def rvolFromCase (volume : ℚ) (med : Option ℚ) : Option ℚ :=
  match med with
  | none => none
  | some m => if m = 0 then none else some (volume / m)

/-- The SQL expression `(close > sma_200)` of a base row (NULL-propagating). -/
def aboveState (b : BaseRow) : Option Bool :=
  b.sma_200.map (fun m => decide (b.close > m))

/-- One row of the final SELECT of the signals query. -/
structure QueryRow where
  symbol : String
  run_date : Nat
  close_d1 : ℚ
  open_d1 : ℚ
  high_d1 : ℚ
  low_d1 : ℚ
  volume_d1 : ℚ
  close_d2 : Option ℚ
  volume_d2 : Option ℚ
  sma_50 : Option ℚ
  sma_200 : Option ℚ
  close_60d_mean : Option ℚ
  close_60d_std : Option ℚ
  vol_60d_median : Option ℚ
  high_252d_max : Option ℚ
  low_252d_min : Option ℚ
  ret_1d : Option ℚ
  z_ret_1d : Option ℚ
  rvol_60 : Option ℚ
  is_52w_high : Option Bool
  is_52w_low : Option Bool
  above_200_prev : Option Bool
  above_200_curr : Option Bool
deriving DecidableEq

/-- The outer SELECT applied to one `base`/`returns` row; `prevAbove` is the
value of `LAG(close > sma_200)` over the **date-filtered** partition, exactly
as in the source (the window of that LAG sits in the outer query, after
`WHERE date = run_date`). -/
def mkQueryRow (sqrtA : ℚ → ℚ) (prevAbove : Option Bool) (b : BaseRow) : QueryRow :=
  let std := b.close_60d_var.map sqrtA
  { symbol := b.symbol, run_date := b.date, close_d1 := b.close,
    open_d1 := b.open_, high_d1 := b.high, low_d1 := b.low,
    volume_d1 := b.volume, close_d2 := b.close_d2, volume_d2 := b.volume_d2,
    sma_50 := b.sma_50, sma_200 := b.sma_200,
    close_60d_mean := b.close_60d_mean, close_60d_std := std,
    vol_60d_median := b.vol_60d_median, high_252d_max := b.high_252d_max,
    low_252d_min := b.low_252d_min,
    ret_1d := ret1d b.close b.close_d2,
    z_ret_1d := zFromCase b.close b.close_60d_mean std,
    rvol_60 := rvolFromCase b.volume b.vol_60d_median,
    is_52w_high := b.high_252d_max.map (fun m => decide (b.high ≥ m)),
    is_52w_low := b.low_252d_min.map (fun m => decide (b.low ≤ m)),
    above_200_prev := prevAbove,
    above_200_curr := aboveState b }

/-- Stable insertion by ascending date (ties keep input order; the engine's
order among equal dates is unspecified and no claim depends on it). -/
def insertByDate (x : PriceBar) : List PriceBar → List PriceBar
  | [] => [x]
  | y :: ys => if x.date < y.date then x :: y :: ys else y :: insertByDate x ys

/-- `ORDER BY date` within a partition. -/
def sortByDate (ps : List PriceBar) : List PriceBar := ps.foldr insertByDate []

/-- `JOIN silver_universe u ON p.symbol = u.symbol WHERE u.is_active`:
each price bar of symbol `s` appears once per matching active universe row. -/
def activeCount (uni : List UniverseRow) (s : String) : Nat :=
  (uni.filter (fun u => u.is_active && u.symbol == s)).length

/-- The joined partition of symbol `s` (ordered by date inside
`queryRowsOfPartition`). -/
def partitionBars (prices : List PriceBar) (uni : List UniverseRow)
    (s : String) : List PriceBar :=
  (prices.filter (fun p => p.symbol == s)).flatMap
    (fun p => List.replicate (activeCount uni s) p)

/-- The query rows for one symbol partition: compute the `base` rows over the
full partition, filter to `date = run_date`, then evaluate the outer SELECT
whose `LAG(close > sma_200)` ranges over the filtered rows. -/
def queryRowsOfPartition (sqrtA : ℚ → ℚ) (run_date : Nat)
    (ps : List PriceBar) : List QueryRow :=
  let filtered := (baseRows (sortByDate ps)).filter (fun b => b.date = run_date)
  (List.range filtered.length).filterMap (fun j =>
    (filtered.get? j).map (fun b =>
      mkQueryRow sqrtA
        (if j = 0 then none else (filtered.get? (j - 1)).bind aboveState) b))

/-- The distinct symbols of the price table (partition keys). -/
def querySymbols (prices : List PriceBar) : List String :=
  (prices.map (·.symbol)).dedup

/-- All rows the signals SQL query returns for `run_date`. -/
def allQueryRows (sqrtA : ℚ → ℚ) (run_date : Nat) (prices : List PriceBar)
    (uni : List UniverseRow) : List QueryRow :=
  (querySymbols prices).flatMap
    (fun s => queryRowsOfPartition sqrtA run_date (partitionBars prices uni s))

/-! ### The pandas stage of `compute_signals` -/

/-- A row of the final DataFrame: the query columns plus the derived flags,
the event-flag count and the composite score. -/
structure SignalRow where
  q : QueryRow
  flag_200d_cross_up : Bool
  flag_200d_cross_down : Bool
  flag_large_move : Bool
  flag_high_rvol : Bool
  flag_52w_high : Bool
  flag_52w_low : Bool
  event_flag_count : Nat
  interestingness_score : ℚ
deriving DecidableEq

/-- The pandas post-processing of one query row: cross flags from
`(above_200_prev == False) & (above_200_curr == True)` (a pandas `==` against
a NULL cell is `False`), threshold flags (`>=` against NaN is `False`),
volume-conditioned 52-week flags (`&` with a NULL cell is `False`), the
boolean-sum `event_flag_count`, and the score
`0.5 * z.abs().clip(upper=4).fillna(0) + 0.3 * rvol.clip(upper=5).fillna(0)
+ 0.2 * event_flag_count`. -/
def addFlags (cfg : Config) (q : QueryRow) : SignalRow :=
  let cross_up := (q.above_200_prev == some false) && (q.above_200_curr == some true)
  let cross_down := (q.above_200_prev == some true) && (q.above_200_curr == some false)
  let large_move :=
    match q.z_ret_1d with
    | none => false
    | some z => decide (|z| ≥ cfg.min_abs_ret_z)
  let high_rvol :=
    match q.rvol_60 with
    | none => false
    | some r => decide (r ≥ cfg.min_rvol)
  let f52h := q.is_52w_high.getD false && high_rvol
  let f52l := q.is_52w_low.getD false && high_rvol
  let efc := large_move.toNat + high_rvol.toNat + f52h.toNat + f52l.toNat
    + cross_up.toNat + cross_down.toNat
  { q := q,
    flag_200d_cross_up := cross_up, flag_200d_cross_down := cross_down,
    flag_large_move := large_move, flag_high_rvol := high_rvol,
    flag_52w_high := f52h, flag_52w_low := f52l,
    event_flag_count := efc,
    interestingness_score :=
      (1 / 2) * (((q.z_ret_1d.map (fun z => |z|)).map (fun a => min a 4)).getD 0)
      + (3 / 10) * ((q.rvol_60.map (fun r => min r 5)).getD 0)
      + (1 / 5) * (efc : ℚ) }

/-- Stable insertion by descending score (strictly-greater goes in front, so
equal scores keep input order, matching a stable descending sort). -/
def insertByScore (x : SignalRow) : List SignalRow → List SignalRow
  | [] => [x]
  | y :: ys =>
    if x.interestingness_score > y.interestingness_score then x :: y :: ys
    else y :: insertByScore x ys

/-- `df.sort_values("interestingness_score", ascending=False)`. -/
def sortByScoreDesc (l : List SignalRow) : List SignalRow := l.foldr insertByScore []

/-- `df.drop_duplicates(subset=["symbol", "run_date"], keep="first")`. -/
def dedupeKeep (seen : List (String × Nat)) : List SignalRow → List SignalRow
  | [] => []
  | r :: rs =>
    if (r.q.symbol, r.q.run_date) ∈ seen then dedupeKeep seen rs
    else r :: dedupeKeep ((r.q.symbol, r.q.run_date) :: seen) rs

/-- `resolve_run_date` (src/core/signals/compute_signals.py): the configured
`run_date` if set, else `max(date)` of `silver_price_daily`, raising when that
table is empty. -/
def resolve_run_date (cfg : Config) (prices : List PriceBar) : Except String Nat :=
  match cfg.run_date with
  | some d => Except.ok d
  | none =>
    match maxN (prices.map (·.date)) with
    | none => Except.error "silver_price_daily is empty; run silver transforms first."
    | some m => Except.ok m

/-- The body of `compute_signals` once the run date is known: run the query,
raise on an empty result, else derive flags/score, sort by score descending
and deduplicate by `(symbol, run_date)` keeping the first (highest) row. -/
def computeSignalsAt (sqrtA : ℚ → ℚ) (cfg : Config) (rd : Nat)
    (prices : List PriceBar) (uni : List UniverseRow) :
    Except String (List SignalRow) :=
  let qrows := allQueryRows sqrtA rd prices uni
  if qrows.isEmpty then
    Except.error ("No signals rows for run_date=" ++ toString rd)
  else
    Except.ok (dedupeKeep [] (sortByScoreDesc (qrows.map (addFlags cfg))))

/-- `compute_signals` (src/core/signals/compute_signals.py): resolve the run
date when the optional argument is absent, then compute. -/
def compute_signals (sqrtA : ℚ → ℚ) (cfg : Config) (runDateArg : Option Nat)
    (prices : List PriceBar) (uni : List UniverseRow) :
    Except String (List SignalRow) :=
  match runDateArg with
  | some rd => computeSignalsAt sqrtA cfg rd prices uni
  | none =>
    match resolve_run_date cfg prices with
    | Except.error e => Except.error e
    | Except.ok rd => computeSignalsAt sqrtA cfg rd prices uni

/-! ### Bronze ingestion (`ingest_prices`) -/

/-- The per-symbol outcome check of `ingest_prices`: a symbol's frame is kept
only when the fetch-and-normalize boundary (abstracted as `fetch`; `none`
models a caught exception or an unusable/missing-column response of
`_fetch_prices_for_symbol`) yields a non-empty frame, mirroring
`if df is not None and not df.empty`. -/
def usableFrame (fetch : String → Option (List PriceBar))
    (s : String) : Option (List PriceBar) :=
  match fetch s with
  | none => none
  | some [] => none
  | some rows => some rows

/-- `ingest_prices` (src/core/bronze_ingest/ingest_prices.py): collect each
symbol's usable non-empty frame, raise when no symbol contributes, else
concatenate all frames into the batch.  The thread pool's completion order
only permutes the concatenation; the model uses symbol order. -/
def ingest_prices (fetch : String → Option (List PriceBar))
    (symbols : List String) : Except String (List PriceBar) :=
  let frames := symbols.filterMap (usableFrame fetch)
  if frames.isEmpty then
    Except.error "No historical price data ingested for any symbol."
  else
    Except.ok frames.flatten

/-- A computable stand-in square root used only to instantiate `sqrtA` in
witnesses (every theorem below quantifies over the square-root map, so the
engine's floating-point square root is one admissible instance). -/
def sqrtQ (v : ℚ) : ℚ :=
  (Nat.sqrt v.num.natAbs : ℚ) / (Nat.sqrt v.den : ℚ)

/-! ### Concrete data for witnesses and counterexamples -/

/-- A bar of symbol `AAA` with the given date, close, high, low and volume. -/
def mkBar (d : Nat) (c h l v : ℚ) : PriceBar :=
  { symbol := "AAA", date := d, open_ := c, high := h, low := l, close := c,
    adj_close := c, volume := v }

/-- 61 bars with `close = 0, 1, …, 60` on dates `1 … 61`. -/
def exPs61 : List PriceBar :=
  (List.range 61).map (fun j => mkBar (j + 1) j j j 1)

/-- The bar at index 60 of `exPs61`. -/
def exBar60 : PriceBar := mkBar 61 60 60 60 1

/-- 253 bars whose `high` is `300` on the first bar and `1` on the 252
following bars (dates `1 … 253`). -/
def exPs253 : List PriceBar :=
  mkBar 1 1 300 1 1 :: (List.range 252).map (fun j => mkBar (j + 2) 1 1 1 1)

/-- The bar at index 252 of `exPs253`. -/
def exBar252 : PriceBar := mkBar 253 1 1 1 1

/-- A configuration with both thresholds at the default 2.0 and no
configured run date. -/
def exCfg : Config := { run_date := none, min_abs_ret_z := 2, min_rvol := 2 }

/-- A one-symbol active universe. -/
def exUni1 : List UniverseRow :=
  [{ symbol := "AAA", company_name := "AAA Corp", sector := "T",
     sub_sector := "S", is_active := true }]

/-- A single bar for symbol `AAA`. -/
def exPrices1 : List PriceBar := [mkBar 1 10 11 9 1000]

/-- Two bars whose close moves from at-the-200-day-average to above it:
`close > sma_200` is `false` on the first row and `true` on the second. -/
def exPrices2 : List PriceBar := [mkBar 1 10 10 10 1000, mkBar 2 30 30 30 1000]

/-- Two universe snapshots: `AAA` only in the older batch (1), `BBB` only in
the newer batch (2), `CCC` in both. -/
def exUniRaws : List RawUniverseRow :=
  [{ symbol := "AAA", name := "A", sector := "T", subSector := "S", ingestion_date := 1 },
   { symbol := "CCC", name := "C", sector := "T", subSector := "S", ingestion_date := 1 },
   { symbol := "BBB", name := "B", sector := "F", subSector := "G", ingestion_date := 2 },
   { symbol := "CCC", name := "C", sector := "T", subSector := "S", ingestion_date := 2 }]

/-- Two price batches sharing the pair `(AAA, 5)` with different values. -/
def exRawPrices : List RawPriceRow :=
  [{ bar := mkBar 5 10 11 9 1000, ingestion_date := 1 },
   { bar := mkBar 5 12 13 11 2000, ingestion_date := 2 },
   { bar := mkBar 6 14 15 13 3000, ingestion_date := 2 }]

/-! ### Window-frame characterization -/

/-- The frame `n PRECEDING AND 1 PRECEDING` at row `i` has `min i n`
elements. -/
theorem rowsBetween_prec_length (n i : Nat) (xs : List ℚ) (hi : i ≤ xs.length) :
    (rowsBetween n 1 i xs).length = min i n := by
  simp only [rowsBetween, List.length_drop, List.length_take]
  omega

/-- The frame `n PRECEDING AND 1 PRECEDING` at row `i` consists of the
elements at positions `i - n + j` (`j < min i n`), i.e. the `min i n` elements
immediately preceding row `i`. -/
theorem rowsBetween_prec_elem (n i j : Nat) (xs : List ℚ) (hj : j < min i n) :
    (rowsBetween n 1 i xs)[j]? = xs[i - n + j]? := by
  have h1 : i + 1 - 1 = i := by omega
  simp only [rowsBetween, h1, List.getElem?_drop, List.getElem?_take]
  have h2 : i - n + j < i := by omega
  simp [h2]

/-! ### Claim C1 -/

/-- Lifting the `MAX` accumulation over a constant block: once the running
maximum dominates the remaining constant entries it is unchanged. -/
theorem foldl_maxStep_replicate (n : Nat) (a b : ℚ) (h : b ≤ a) :
    (List.replicate n b).foldl (fun acc x =>
      match acc with
      | none => some x
      | some m => some (max m x)) (some a) = some a := by
  induction n with
  | zero => simp
  | succ k ih => simp only [List.replicate_succ, List.foldl_cons, max_eq_left h, ih]

/-- `MAX` of a non-empty constant frame is the constant. -/
theorem maxAgg_replicate (n : Nat) (c : ℚ) :
    maxAgg (List.replicate (n + 1) c) = some c := by
  simp only [maxAgg, List.replicate_succ, List.foldl_cons]
  exact foldl_maxStep_replicate n c c le_rfl

/-- `MAX` of a frame whose head dominates a constant tail is the head. -/
theorem maxAgg_cons_replicate (n : Nat) (a b : ℚ) (h : b ≤ a) :
    maxAgg (a :: List.replicate n b) = some a := by
  simp only [maxAgg, List.foldl_cons]
  exact foldl_maxStep_replicate n a b h

set_option maxRecDepth 2000000 in
/-- The code's 52-week frame at row 252 of `exPs253` misses the first bar:
it is the 251 constant bars. -/
theorem win252_src :
    rowsBetween 251 1 252 (exPs253.map (·.high)) = List.replicate 251 1 := by
  decide

set_option maxRecDepth 2000000 in
/-- The 252 bars immediately preceding row 252 of `exPs253` include the
first bar with its high of 300. -/
theorem win252_claim :
    precedingBars 252 252 (exPs253.map (·.high)) = (300 : ℚ) :: List.replicate 251 1 := by
  decide

set_option maxRecDepth 2000000 in
unseal Rat.add Rat.mul Rat.inv Rat.sub in
/-- Claim C1, counterexample: the claim says the 60-day statistics aggregate
over exactly the 60 bars immediately preceding the current row and the 52-week
extrema over exactly the 252 bars immediately preceding; on the 61-bar series
with `close = 0 … 60` the code's `close_60d_mean` at row 60 is `30` (mean of
closes 1 … 59, i.e. 59 preceding bars) while the mean of the 60 preceding bars
is `59/2`, and on the 253-bar series `exPs253` the code's `high_252d_max` at
row 252 is `1` (max over the 251 preceding bars) while the max of the 252
preceding bars is `300`. -/
theorem C1_counterexample :
    (mkBaseRow exPs61 60 exBar60).close_60d_mean ≠
      avgAgg (precedingBars 60 60 (exPs61.map (·.close))) ∧
    (mkBaseRow exPs253 252 exBar252).high_252d_max ≠
      maxAgg (precedingBars 252 252 (exPs253.map (·.high))) := by
  constructor
  · decide
  · have hsrc : (mkBaseRow exPs253 252 exBar252).high_252d_max = some 1 := by
      show maxAgg (rowsBetween 251 1 252 (exPs253.map (·.high))) = some 1
      rw [win252_src]
      exact maxAgg_replicate 250 1
    have hclaim : maxAgg (precedingBars 252 252 (exPs253.map (·.high))) = some 300 := by
      rw [win252_claim]
      exact maxAgg_cons_replicate 251 300 1 (by norm_num)
    rw [hsrc, hclaim]
    intro h
    exact absurd (Option.some.inj h) (by norm_num)

set_option maxRecDepth 100000 in
/-- Claim C1 (amended): the mean and population variance (whose square root is
the standard deviation used by `z_ret_1d`), and the volume median used by
`rvol_60`, aggregate over the frame `59 PRECEDING AND 1 PRECEDING` — the
`min i 59` (at most 59, not 60) bars immediately preceding row `i`, excluding
the current day — and the 52-week extrema over the frame
`251 PRECEDING AND 1 PRECEDING` — the `min i 251` (at most 251, not 252) bars
immediately preceding, excluding the current day. -/
theorem C1_windows (ps : List PriceBar) (i : Nat) (p : PriceBar)
    (hi : i ≤ ps.length) :
    (mkBaseRow ps i p).close_60d_mean
        = avgAgg (rowsBetween 59 1 i (ps.map (·.close))) ∧
    (mkBaseRow ps i p).close_60d_var
        = varPopAgg (rowsBetween 59 1 i (ps.map (·.close))) ∧
    (mkBaseRow ps i p).vol_60d_median
        = medianAgg (rowsBetween 59 1 i (ps.map (·.volume))) ∧
    (mkBaseRow ps i p).high_252d_max
        = maxAgg (rowsBetween 251 1 i (ps.map (·.high))) ∧
    (mkBaseRow ps i p).low_252d_min
        = minAgg (rowsBetween 251 1 i (ps.map (·.low))) ∧
    (rowsBetween 59 1 i (ps.map (·.close))).length = min i 59 ∧
    (∀ j, j < min i 59 →
      (rowsBetween 59 1 i (ps.map (·.close)))[j]? = (ps.map (·.close))[i - 59 + j]?) ∧
    (rowsBetween 251 1 i (ps.map (·.high))).length = min i 251 ∧
    (∀ j, j < min i 251 →
      (rowsBetween 251 1 i (ps.map (·.high)))[j]? = (ps.map (·.high))[i - 251 + j]?) := by
  refine ⟨rfl, rfl, rfl, rfl, rfl, ?_, ?_, ?_, ?_⟩
  · exact rowsBetween_prec_length 59 i _ (by simpa using hi)
  · exact fun j hj => rowsBetween_prec_elem 59 i j _ hj
  · exact rowsBetween_prec_length 251 i _ (by simpa using hi)
  · exact fun j hj => rowsBetween_prec_elem 251 i j _ hj

/-- Claim C1, witness: the amended window facts evaluated at row 60 of the
61-bar series. -/
theorem C1_windows_witness :
    (mkBaseRow exPs61 60 exBar60).close_60d_mean
        = avgAgg (rowsBetween 59 1 60 (exPs61.map (·.close))) ∧
    (rowsBetween 59 1 60 (exPs61.map (·.close))).length = min 60 59 ∧
    (rowsBetween 59 1 60 (exPs61.map (·.close)))[0]? = (exPs61.map (·.close))[1]? := by
  have h := C1_windows exPs61 60 exBar60 (by decide)
  exact ⟨h.1, h.2.2.2.2.2.1, h.2.2.2.2.2.2.1 0 (by decide)⟩

/-! ### Claim C2 -/

set_option maxRecDepth 100000 in
unseal Rat.add Rat.mul Rat.inv Rat.sub in
/-- Claim C2 is right about the intent and wrong about the code: the outer
SELECT computes `LAG(close > sma_200)` **after** `WHERE date = run_date`, so
each symbol partition holds a single row and `above_200_prev` is always NULL,
making both cross flags constantly false.  On `exPrices2`, `close > sma_200`
is `false` on the chronologically previous row and `true` on the run-date row
— the claim requires `flag_200d_cross_up = true` — yet the code returns
`false` for both cross flags. -/
theorem C2_cross_flags_dead :
    (baseRows exPrices2).map aboveState = [some false, some true] ∧
    (compute_signals sqrtQ exCfg (some 2) exPrices2 exUni1).toOption.map
        (fun out => out.map (fun r =>
          (r.q.above_200_prev, r.flag_200d_cross_up, r.flag_200d_cross_down)))
      = some [(none, false, false)] := by
  decide

/-! ### Claim C4 -/

/-- Claim C4, counterexample: `build_silver_universe` reads every snapshot
with no dedup and no latest-snapshot filter, so symbol `AAA` (present only in
the older batch, whose key 1 is below the latest key 2) still appears, and
symbol `CCC` (present in both batches) yields two rows instead of one. -/
theorem C4_counterexample :
    (∃ u ∈ build_silver_universe exUniRaws, u.symbol = "AAA") ∧
    (∀ r ∈ exUniRaws, r.symbol = "AAA" →
        latestUniverseIngestion exUniRaws = some 2 ∧ r.ingestion_date ≠ 2) ∧
    ((build_silver_universe exUniRaws).filter (fun u => u.symbol == "CCC")).length
      = 2 := by
  decide

/-- Claim C4 (amended): the curated universe table is the plain union of all
snapshot rows — one output row per raw row (the row at each index is its raw
row's fields with `is_active = true`), so for every symbol the table holds
exactly as many rows as the symbol has raw snapshot rows: symbols present only
in older snapshots are retained and a symbol occurring in several snapshots
occurs several times — and every retained row has `is_active = true`. -/
theorem C4_union_all_snapshots (raws : List RawUniverseRow) :
    (build_silver_universe raws).length = raws.length ∧
    (∀ u ∈ build_silver_universe raws, u.is_active = true) ∧
    (∀ i : Nat, (build_silver_universe raws)[i]? =
      raws[i]?.map (fun r =>
        { symbol := r.symbol, company_name := r.name, sector := r.sector,
          sub_sector := r.subSector, is_active := true })) ∧
    (∀ s : String,
      ((build_silver_universe raws).filter (fun u => u.symbol == s)).length
        = (raws.filter (fun r => r.symbol == s)).length) := by
  refine ⟨?_, ?_, ?_, ?_⟩
  · simp [build_silver_universe]
  · intro u hu
    obtain ⟨r, hr, he⟩ := List.mem_map.mp hu
    rw [← he]
  · intro i
    simp [build_silver_universe, List.getElem?_map]
  · intro s
    unfold build_silver_universe
    rw [List.filter_map]
    simp [Function.comp_def]

/-- Claim C4, witness: on the two concrete snapshots, the table has one row
per raw row (4 in total), the older-snapshot-only symbol `AAA` keeps its one
row, the twice-snapshotted symbol `CCC` appears twice, the row at index 0 is
the mapped `AAA` row, and a concrete retained row is active. -/
theorem C4_union_all_snapshots_witness :
    (build_silver_universe exUniRaws).length = exUniRaws.length ∧
    ({ symbol := "AAA", company_name := "A", sector := "T", sub_sector := "S",
       is_active := true } : UniverseRow).is_active = true ∧
    (build_silver_universe exUniRaws)[0]? =
      some { symbol := "AAA", company_name := "A", sector := "T",
             sub_sector := "S", is_active := true } ∧
    ((build_silver_universe exUniRaws).filter
      (fun u => u.symbol == "AAA")).length = 1 ∧
    ((build_silver_universe exUniRaws).filter
      (fun u => u.symbol == "CCC")).length = 2 := by
  have h := C4_union_all_snapshots exUniRaws
  refine ⟨h.1, ?_, ?_, ?_, ?_⟩
  · exact h.2.1
      ({ symbol := "AAA", company_name := "A", sector := "T",
         sub_sector := "S", is_active := true } : UniverseRow) (by decide)
  · rw [h.2.2.1 0]
    rfl
  · rw [h.2.2.2 "AAA"]
    rfl
  · rw [h.2.2.2 "CCC"]
    rfl

/-! ### Claim C3 -/

/-- `laterIngestion` returns one of its arguments. -/
theorem laterIngestion_cases (a b : RawPriceRow) :
    laterIngestion a b = a ∨ laterIngestion a b = b := by
  unfold laterIngestion
  split
  · exact Or.inr rfl
  · exact Or.inl rfl

/-- `laterIngestion` dominates its left argument. -/
theorem laterIngestion_ge_left (a b : RawPriceRow) :
    a.ingestion_date ≤ (laterIngestion a b).ingestion_date := by
  unfold laterIngestion
  split <;> omega

/-- `laterIngestion` dominates its right argument. -/
theorem laterIngestion_ge_right (a b : RawPriceRow) :
    b.ingestion_date ≤ (laterIngestion a b).ingestion_date := by
  unfold laterIngestion
  split <;> omega

/-- The fold of `laterIngestion` picks an element of the group. -/
theorem foldl_later_mem (gs : List RawPriceRow) :
    ∀ g, gs.foldl laterIngestion g ∈ g :: gs := by
  induction gs with
  | nil => intro g; simp
  | cons a as ih =>
    intro g
    have h := ih (laterIngestion g a)
    simp only [List.foldl_cons]
    rcases List.mem_cons.mp h with h1 | h1
    · rw [h1]
      rcases laterIngestion_cases g a with h2 | h2
      · rw [h2]
        exact List.mem_cons_self _ _
      · rw [h2]
        exact List.mem_cons_of_mem _ (List.mem_cons_self _ _)
    · exact List.mem_cons_of_mem _ (List.mem_cons_of_mem _ h1)

/-- The fold of `laterIngestion` dominates every element of the group. -/
theorem foldl_later_ge (gs : List RawPriceRow) :
    ∀ g x, x ∈ g :: gs →
      x.ingestion_date ≤ (gs.foldl laterIngestion g).ingestion_date := by
  induction gs with
  | nil =>
    intro g x hx
    rw [List.mem_singleton.mp hx]
    exact le_refl _
  | cons a as ih =>
    intro g x hx
    simp only [List.foldl_cons]
    rcases List.mem_cons.mp hx with rfl | hx2
    · exact le_trans (laterIngestion_ge_left x a)
        (ih (laterIngestion x a) (laterIngestion x a) (List.mem_cons_self _ _))
    · rcases List.mem_cons.mp hx2 with rfl | hx3
      · exact le_trans (laterIngestion_ge_right g x)
          (ih (laterIngestion g x) (laterIngestion g x) (List.mem_cons_self _ _))
      · exact ih (laterIngestion g a) x (List.mem_cons_of_mem _ hx3)

/-- A `some` result of `bestForKey` belongs to the input and carries the
requested key. -/
theorem bestForKey_key (raws : List RawPriceRow) (k : String × Nat)
    (r : RawPriceRow) (hb : bestForKey raws k = some r) :
    r ∈ raws ∧ keyOf r = k := by
  unfold bestForKey at hb
  split at hb
  · exact absurd hb (by simp)
  · next g gs hgrp =>
    have hm := foldl_later_mem gs g
    rw [Option.some.inj hb, ← hgrp] at hm
    have h2 := List.mem_filter.mp hm
    exact ⟨h2.1, of_decide_eq_true h2.2⟩

/-- On a non-empty key group, `bestForKey` returns a member of the group with
the greatest `ingestion_date`. -/
theorem bestForKey_spec (raws : List RawPriceRow) (k : String × Nat)
    (hne : raws.filter (fun r => keyOf r = k) ≠ []) :
    ∃ r, bestForKey raws k = some r ∧ r ∈ raws ∧ keyOf r = k ∧
      ∀ r' ∈ raws, keyOf r' = k → r'.ingestion_date ≤ r.ingestion_date := by
  rcases hgrp : raws.filter (fun r => keyOf r = k) with _ | ⟨g, gs⟩
  · exact absurd hgrp hne
  · have hb : bestForKey raws k = some (gs.foldl laterIngestion g) := by
      unfold bestForKey
      rw [hgrp]
    obtain ⟨hmem, hkey⟩ := bestForKey_key raws k _ hb
    refine ⟨_, hb, hmem, hkey, ?_⟩
    intro r' hr' hk
    have hin : r' ∈ raws.filter (fun r => keyOf r = k) :=
      List.mem_filter.mpr ⟨hr', by simp [hk]⟩
    rw [hgrp] at hin
    exact foldl_later_ge gs g r' hin

/-- Keys outside `ks` never survive the key filter over the per-key bars. -/
theorem filter_filterMap_not_mem (raws : List RawPriceRow) (k : String × Nat)
    (ks : List (String × Nat)) (hknot : k ∉ ks) :
    (ks.filterMap (fun k' => (bestForKey raws k').map (·.bar))).filter
      (fun b => (b.symbol, b.date) = k) = [] := by
  rw [List.filter_eq_nil_iff]
  intro b hb
  obtain ⟨k', hk', hsome⟩ := List.mem_filterMap.mp hb
  obtain ⟨r', hbk', hbar⟩ := Option.map_eq_some'.mp hsome
  have hkey := (bestForKey_key raws k' r' hbk').2
  simp only [decide_eq_true_eq]
  intro hcontra
  apply hknot
  subst hbar
  have hk2 : keyOf r' = k := hcontra
  have hkk : k = k' := hk2.symm.trans hkey
  exact hkk ▸ hk'

/-- Filtering the built silver table to one key present in a duplicate-free
key list yields exactly the best raw row's bar for that key. -/
theorem filter_build_eq_best (raws : List RawPriceRow) (k : String × Nat)
    (r : RawPriceRow) (hb : bestForKey raws k = some r) :
    ∀ keys : List (String × Nat), keys.Nodup → k ∈ keys →
      (keys.filterMap (fun k' => (bestForKey raws k').map (·.bar))).filter
        (fun b => (b.symbol, b.date) = k) = [r.bar] := by
  have hkey : keyOf r = k := (bestForKey_key raws k r hb).2
  intro keys
  induction keys with
  | nil => intro _ hk; exact absurd hk (List.not_mem_nil k)
  | cons k0 ks ih =>
    intro hnd hk
    rcases List.mem_cons.mp hk with rfl | hk2
    · have hp : decide ((r.bar.symbol, r.bar.date) = k) = true :=
        decide_eq_true hkey
      rw [List.filterMap_cons, hb]
      simp only [Option.map_some']
      rw [List.filter_cons, hp, if_pos rfl,
        filter_filterMap_not_mem raws k ks (List.nodup_cons.mp hnd).1]
    · have hk0 : k ≠ k0 := fun h => (List.nodup_cons.mp hnd).1 (h ▸ hk2)
      rw [List.filterMap_cons]
      cases hb0 : bestForKey raws k0 with
      | none => exact ih (List.nodup_cons.mp hnd).2 hk2
      | some r0 =>
        have hkey0 : keyOf r0 = k0 := (bestForKey_key raws k0 r0 hb0).2
        have hnp : decide ((r0.bar.symbol, r0.bar.date) = k) = false := by
          simp only [decide_eq_false_iff_not]
          intro hcontra
          exact hk0 ((show keyOf r0 = k from hcontra).symm.trans hkey0)
        simp only [Option.map_some']
        rw [List.filter_cons, hnp, if_neg Bool.false_ne_true]
        exact ih (List.nodup_cons.mp hnd).2 hk2

/-- Claim C3: for every (symbol, date) pair present in more than one raw
ingestion batch, the curated price table holds exactly one row for that pair
(the filter on the pair is a singleton), and that row's values are the bar of
a raw row of that pair whose `ingestion_date` is greatest among all raw rows
of the pair. -/
theorem C3_latest_batch_wins (raws : List RawPriceRow) (s : String) (d : Nat)
    (hdup : ∃ r1, r1 ∈ raws ∧ ∃ r2, r2 ∈ raws ∧ keyOf r1 = (s, d) ∧
      keyOf r2 = (s, d) ∧ r1.ingestion_date ≠ r2.ingestion_date) :
    ∃ r, r ∈ raws ∧ keyOf r = (s, d) ∧
      (∀ r' ∈ raws, keyOf r' = (s, d) → r'.ingestion_date ≤ r.ingestion_date) ∧
      (build_silver_price_daily raws).filter
        (fun b => (b.symbol, b.date) = (s, d)) = [r.bar] := by
  obtain ⟨r1, hr1, r2, hr2, hk1, hk2, hne⟩ := hdup
  have hgrp : raws.filter (fun r => keyOf r = (s, d)) ≠ [] :=
    List.ne_nil_of_mem (List.mem_filter.mpr ⟨hr1, decide_eq_true hk1⟩)
  obtain ⟨r, hb, hmem, hkey, hmax⟩ := bestForKey_spec raws (s, d) hgrp
  refine ⟨r, hmem, hkey, hmax, ?_⟩
  exact filter_build_eq_best raws (s, d) r hb _ (List.nodup_dedup _)
    (List.mem_dedup.mpr (List.mem_map.mpr ⟨r1, hr1, hk1⟩))

/-- Claim C3, witness: on two batches sharing the pair (AAA, 5), the claim
instantiates — the silver filter on the pair is the singleton bar of its
maximal-ingestion raw row. -/
theorem C3_latest_batch_wins_witness :
    ∃ r, r ∈ exRawPrices ∧ keyOf r = ("AAA", 5) ∧
      (∀ r' ∈ exRawPrices, keyOf r' = ("AAA", 5) →
        r'.ingestion_date ≤ r.ingestion_date) ∧
      (build_silver_price_daily exRawPrices).filter
        (fun b => (b.symbol, b.date) = ("AAA", 5)) = [r.bar] :=
  C3_latest_batch_wins exRawPrices "AAA" 5
    ⟨{ bar := mkBar 5 10 11 9 1000, ingestion_date := 1 }, by decide,
     { bar := mkBar 5 12 13 11 2000, ingestion_date := 2 }, by decide,
     by decide, by decide, by decide⟩

/-! ### Output rows come from query rows -/

/-- Members of an `insertByScore` are the inserted row or members of the
original list. -/
theorem mem_insertByScore {x a : SignalRow} {l : List SignalRow}
    (h : x ∈ insertByScore a l) : x = a ∨ x ∈ l := by
  induction l with
  | nil => simpa [insertByScore] using h
  | cons y ys ih =>
    unfold insertByScore at h
    split at h
    · exact (List.mem_cons.mp h).imp id id
    · rcases List.mem_cons.mp h with rfl | h2
      · exact Or.inr (List.mem_cons_self _ _)
      · rcases ih h2 with h3 | h3
        · exact Or.inl h3
        · exact Or.inr (List.mem_cons_of_mem _ h3)

/-- The descending sort permutes; membership is preserved. -/
theorem mem_sortByScoreDesc {x : SignalRow} {l : List SignalRow}
    (h : x ∈ sortByScoreDesc l) : x ∈ l := by
  induction l with
  | nil => simpa [sortByScoreDesc] using h
  | cons y ys ih =>
    rcases mem_insertByScore (h : x ∈ insertByScore y (sortByScoreDesc ys)) with h1 | h1
    · exact h1 ▸ List.mem_cons_self _ _
    · exact List.mem_cons_of_mem _ (ih h1)

/-- The pandas dedup only drops rows. -/
theorem mem_dedupeKeep {x : SignalRow} :
    ∀ (seen : List (String × Nat)) (l : List SignalRow),
      x ∈ dedupeKeep seen l → x ∈ l := by
  intro seen l
  induction l generalizing seen with
  | nil => intro h; simpa [dedupeKeep] using h
  | cons y ys ih =>
    intro h
    unfold dedupeKeep at h
    split at h
    · exact List.mem_cons_of_mem _ (ih _ h)
    · rcases List.mem_cons.mp h with rfl | h2
      · exact List.mem_cons_self _ _
      · exact List.mem_cons_of_mem _ (ih _ h2)

/-- Every row of a successful `computeSignalsAt` is `addFlags` of a query
row. -/
theorem mem_computeSignalsAt (sqrtA : ℚ → ℚ) (cfg : Config) (rd : Nat)
    (prices : List PriceBar) (uni : List UniverseRow) (out : List SignalRow)
    (row : SignalRow) (h : computeSignalsAt sqrtA cfg rd prices uni = Except.ok out)
    (hr : row ∈ out) :
    ∃ q, q ∈ allQueryRows sqrtA rd prices uni ∧ row = addFlags cfg q := by
  simp only [computeSignalsAt] at h
  split at h
  · exact absurd h (by simp)
  · rw [← Except.ok.inj h] at hr
    obtain ⟨q, hq, he⟩ :=
      List.mem_map.mp (mem_sortByScoreDesc (mem_dedupeKeep _ _ hr))
    exact ⟨q, hq, he.symm⟩

/-- Every row of a successful `compute_signals` is `addFlags` of a query row
for some resolved run date. -/
theorem mem_compute_signals (sqrtA : ℚ → ℚ) (cfg : Config) (rdArg : Option Nat)
    (prices : List PriceBar) (uni : List UniverseRow) (out : List SignalRow)
    (row : SignalRow)
    (h : compute_signals sqrtA cfg rdArg prices uni = Except.ok out)
    (hr : row ∈ out) :
    ∃ rd q, q ∈ allQueryRows sqrtA rd prices uni ∧ row = addFlags cfg q := by
  unfold compute_signals at h
  cases rdArg with
  | some rd => exact ⟨rd, mem_computeSignalsAt sqrtA cfg rd prices uni out row h hr⟩
  | none =>
    cases hres : resolve_run_date cfg prices with
    | error e => rw [hres] at h; exact absurd h (by simp)
    | ok rd =>
      rw [hres] at h
      exact ⟨rd, mem_computeSignalsAt sqrtA cfg rd prices uni out row h hr⟩

/-- Every query row is `mkQueryRow` of some base row and LAG state. -/
theorem mem_allQueryRows (sqrtA : ℚ → ℚ) (rd : Nat) (prices : List PriceBar)
    (uni : List UniverseRow) (q : QueryRow)
    (hq : q ∈ allQueryRows sqrtA rd prices uni) :
    ∃ pa b, q = mkQueryRow sqrtA pa b := by
  unfold allQueryRows at hq
  obtain ⟨s, hs, hq2⟩ := List.mem_flatMap.mp hq
  unfold queryRowsOfPartition at hq2
  obtain ⟨j, hj, hsome⟩ := List.mem_filterMap.mp hq2
  obtain ⟨b, hb, he⟩ := Option.map_eq_some'.mp hsome
  exact ⟨_, b, he.symm⟩

/-- `ret_1d` is NULL on a missing previous close. -/
theorem ret1d_none (c : ℚ) : ret1d c none = none := rfl

/-- `ret_1d` is NULL on a zero previous close. -/
theorem ret1d_zero (c : ℚ) : ret1d c (some 0) = none := by
  simp [ret1d]

/-- `z_ret_1d` is NULL on a missing standard deviation. -/
theorem zFromCase_none (c : ℚ) (m : Option ℚ) : zFromCase c m none = none := rfl

/-- `z_ret_1d` is NULL on a zero standard deviation. -/
theorem zFromCase_zero (c : ℚ) (m : Option ℚ) : zFromCase c m (some 0) = none := by
  simp [zFromCase]

/-- `rvol_60` is NULL on a missing volume median. -/
theorem rvolFromCase_none (v : ℚ) : rvolFromCase v none = none := rfl

/-- `rvol_60` is NULL on a zero volume median. -/
theorem rvolFromCase_zero (v : ℚ) : rvolFromCase v (some 0) = none := by
  simp [rvolFromCase]

/-- The three NULL guards of the outer SELECT, stated on a constructed query
row: a missing or zero previous close nullifies `ret_1d`, a missing or zero
standard deviation nullifies `z_ret_1d`, a missing or zero volume median
nullifies `rvol_60`. -/
theorem mkQueryRow_guards (sqrtA : ℚ → ℚ) (pa : Option Bool) (b : BaseRow) :
    (((mkQueryRow sqrtA pa b).close_d2 = none ∨
        (mkQueryRow sqrtA pa b).close_d2 = some 0) →
      (mkQueryRow sqrtA pa b).ret_1d = none) ∧
    (((mkQueryRow sqrtA pa b).close_60d_std = none ∨
        (mkQueryRow sqrtA pa b).close_60d_std = some 0) →
      (mkQueryRow sqrtA pa b).z_ret_1d = none) ∧
    (((mkQueryRow sqrtA pa b).vol_60d_median = none ∨
        (mkQueryRow sqrtA pa b).vol_60d_median = some 0) →
      (mkQueryRow sqrtA pa b).rvol_60 = none) := by
  simp only [mkQueryRow]
  refine ⟨?_, ?_, ?_⟩
  · intro h
    rcases h with h | h
    · rw [h]
      exact ret1d_none _
    · rw [h]
      exact ret1d_zero _
  · intro h
    rcases h with h | h
    · rw [h]
      exact zFromCase_none _ _
    · rw [h]
      exact zFromCase_zero _ _
  · intro h
    rcases h with h | h
    · rw [h]
      exact rvolFromCase_none _
    · rw [h]
      exact rvolFromCase_zero _

/-- The single output row `compute_signals` produces on the one-bar table
`exPrices1` at run date 1: every windowed statistic is NULL (no prior bars),
all flags are false and the score is 0. -/
def exRow1 : SignalRow :=
  { q := { symbol := "AAA", run_date := 1, close_d1 := 10, open_d1 := 10,
           high_d1 := 11, low_d1 := 9, volume_d1 := 1000, close_d2 := none,
           volume_d2 := none, sma_50 := some 10, sma_200 := some 10,
           close_60d_mean := none, close_60d_std := none,
           vol_60d_median := none, high_252d_max := none,
           low_252d_min := none, ret_1d := none, z_ret_1d := none,
           rvol_60 := none, is_52w_high := none, is_52w_low := none,
           above_200_prev := none, above_200_curr := some false },
    flag_200d_cross_up := false, flag_200d_cross_down := false,
    flag_large_move := false, flag_high_rvol := false,
    flag_52w_high := false, flag_52w_low := false,
    event_flag_count := 0, interestingness_score := 0 }

set_option maxRecDepth 100000 in
unseal Rat.add Rat.mul Rat.inv Rat.sub in
/-- Concrete evaluation of the pipeline on the one-bar table. -/
theorem ex1_eval :
    compute_signals sqrtQ exCfg (some 1) exPrices1 exUni1 = Except.ok [exRow1] := by
  rfl

/-! ### Claim C5 -/

/-- Claim C5: on every output row of `compute_signals`, `ret_1d` is NULL when
the previous close is missing or zero, `z_ret_1d` is NULL when the trailing
standard deviation is undefined or zero, and `rvol_60` is NULL when the
trailing volume median is undefined or zero — the guarded ratios never divide
by zero (the embedding is total; the SQL `NULLIF`/`CASE` guards realize
this). -/
theorem C5_null_guards (sqrtA : ℚ → ℚ) (cfg : Config) (rdArg : Option Nat)
    (prices : List PriceBar) (uni : List UniverseRow) (out : List SignalRow)
    (row : SignalRow)
    (h : compute_signals sqrtA cfg rdArg prices uni = Except.ok out)
    (hr : row ∈ out) :
    ((row.q.close_d2 = none ∨ row.q.close_d2 = some 0) → row.q.ret_1d = none) ∧
    ((row.q.close_60d_std = none ∨ row.q.close_60d_std = some 0) →
      row.q.z_ret_1d = none) ∧
    ((row.q.vol_60d_median = none ∨ row.q.vol_60d_median = some 0) →
      row.q.rvol_60 = none) := by
  obtain ⟨rd, q, hq, rfl⟩ :=
    mem_compute_signals sqrtA cfg rdArg prices uni out row h hr
  obtain ⟨pa, b, rfl⟩ := mem_allQueryRows sqrtA rd prices uni q hq
  exact mkQueryRow_guards sqrtA pa b

/-- Claim C5, witness: on the one-bar row all three guards fire (previous
close, standard deviation and volume median are all NULL) and all three
ratios are NULL. -/
theorem C5_null_guards_witness :
    exRow1.q.ret_1d = none ∧ exRow1.q.z_ret_1d = none ∧
      exRow1.q.rvol_60 = none := by
  have h := C5_null_guards sqrtQ exCfg (some 1) exPrices1 exUni1 [exRow1]
    exRow1 ex1_eval (List.mem_singleton_self exRow1)
  exact ⟨h.1 (Or.inl rfl), h.2.1 (Or.inl rfl), h.2.2 (Or.inl rfl)⟩

/-! ### Claim C6 -/

/-- Claim C6: on every output row, the composite score equals
`0.5 × min(|z_ret_1d|, 4) + 0.3 × min(rvol_60, 5) + 0.2 × event_flag_count`
with a NULL `z_ret_1d` or `rvol_60` contributing zero. -/
theorem C6_score_formula (sqrtA : ℚ → ℚ) (cfg : Config) (rdArg : Option Nat)
    (prices : List PriceBar) (uni : List UniverseRow) (out : List SignalRow)
    (row : SignalRow)
    (h : compute_signals sqrtA cfg rdArg prices uni = Except.ok out)
    (hr : row ∈ out) :
    row.interestingness_score =
      (1 / 2) * (match row.q.z_ret_1d with
        | none => 0
        | some z => min |z| 4)
      + (3 / 10) * (match row.q.rvol_60 with
        | none => 0
        | some r => min r 5)
      + (1 / 5) * (row.event_flag_count : ℚ) := by
  obtain ⟨rd, q, hq, rfl⟩ :=
    mem_compute_signals sqrtA cfg rdArg prices uni out row h hr
  cases hz : q.z_ret_1d <;> cases hv : q.rvol_60 <;>
    simp [addFlags, hz, hv]

/-- Claim C6, witness: the score of the one-bar row is zero, as the formula
(with both statistics NULL and no flags) dictates. -/
theorem C6_score_formula_witness : exRow1.interestingness_score = 0 := by
  rw [C6_score_formula sqrtQ exCfg (some 1) exPrices1 exUni1 [exRow1] exRow1
    ex1_eval (List.mem_singleton_self exRow1)]
  norm_num [exRow1]

/-! ### Claim C7 -/

/-- A sum of six boolean indicators counts the true entries. -/
theorem bool_toNat_sum_count (b1 b2 b3 b4 b5 b6 : Bool) :
    b1.toNat + b2.toNat + b3.toNat + b4.toNat + b5.toNat + b6.toNat
      = [b1, b2, b3, b4, b5, b6].count true := by
  cases b1 <;> cases b2 <;> cases b3 <;> cases b4 <;> cases b5 <;> cases b6 <;>
    rfl

/-- Claim C7: on every output row, `event_flag_count` is exactly the number of
true flags among the six event flags. -/
theorem C7_event_flag_count (sqrtA : ℚ → ℚ) (cfg : Config) (rdArg : Option Nat)
    (prices : List PriceBar) (uni : List UniverseRow) (out : List SignalRow)
    (row : SignalRow)
    (h : compute_signals sqrtA cfg rdArg prices uni = Except.ok out)
    (hr : row ∈ out) :
    row.event_flag_count =
      [row.flag_large_move, row.flag_high_rvol, row.flag_52w_high,
       row.flag_52w_low, row.flag_200d_cross_up,
       row.flag_200d_cross_down].count true := by
  obtain ⟨rd, q, hq, rfl⟩ :=
    mem_compute_signals sqrtA cfg rdArg prices uni out row h hr
  simp only [addFlags]
  exact bool_toNat_sum_count _ _ _ _ _ _

/-- Claim C7, witness: the one-bar row has no true flags and count 0. -/
theorem C7_event_flag_count_witness :
    exRow1.event_flag_count =
      [exRow1.flag_large_move, exRow1.flag_high_rvol, exRow1.flag_52w_high,
       exRow1.flag_52w_low, exRow1.flag_200d_cross_up,
       exRow1.flag_200d_cross_down].count true :=
  C7_event_flag_count sqrtQ exCfg (some 1) exPrices1 exUni1 [exRow1] exRow1
    ex1_eval (List.mem_singleton_self exRow1)

/-! ### Claim C10 -/

/-- Six boolean indicators sum to at most 6. -/
theorem sum_six_toNat_le (b1 b2 b3 b4 b5 b6 : Bool) :
    b1.toNat + b2.toNat + b3.toNat + b4.toNat + b5.toNat + b6.toNat ≤ 6 := by
  cases b1 <;> cases b2 <;> cases b3 <;> cases b4 <;> cases b5 <;> cases b6 <;>
    decide

/-- The score expression is bounded by 4.7 whenever the flag count is at most
6: the z term is clipped at 4, the rvol term at 5. -/
theorem score_formula_bound (z rv : Option ℚ) (efc : Nat) (hefc : efc ≤ 6) :
    (1 / 2) * (((z.map (fun x => |x|)).map (fun a => min a 4)).getD 0)
      + (3 / 10) * ((rv.map (fun r => min r 5)).getD 0)
      + (1 / 5) * (efc : ℚ) ≤ 47 / 10 := by
  have hA : (((z.map (fun x => |x|)).map (fun a => min a 4)).getD 0) ≤ 4 := by
    cases z with
    | none => norm_num
    | some x => simpa using min_le_right |x| 4
  have hB : ((rv.map (fun r => min r 5)).getD 0) ≤ 5 := by
    cases rv with
    | none => norm_num
    | some r => simpa using min_le_right r 5
  have hE : (efc : ℚ) ≤ 6 := by exact_mod_cast hefc
  linarith

/-- Claim C10: on every output row, the composite score is at most
`4.7 = 0.5 × 4 + 0.3 × 5 + 0.2 × 6`. -/
theorem C10_score_bound (sqrtA : ℚ → ℚ) (cfg : Config) (rdArg : Option Nat)
    (prices : List PriceBar) (uni : List UniverseRow) (out : List SignalRow)
    (row : SignalRow)
    (h : compute_signals sqrtA cfg rdArg prices uni = Except.ok out)
    (hr : row ∈ out) :
    row.interestingness_score ≤ 47 / 10 := by
  obtain ⟨rd, q, hq, rfl⟩ :=
    mem_compute_signals sqrtA cfg rdArg prices uni out row h hr
  simp only [addFlags]
  exact score_formula_bound q.z_ret_1d q.rvol_60 _
    (sum_six_toNat_le _ _ _ _ _ _)

/-- Claim C10, witness: the one-bar row's score 0 is within the bound. -/
theorem C10_score_bound_witness : exRow1.interestingness_score ≤ 47 / 10 :=
  C10_score_bound sqrtQ exCfg (some 1) exPrices1 exUni1 [exRow1] exRow1
    ex1_eval (List.mem_singleton_self exRow1)

/-! ### Claim C8 -/

/-- Members of an `insertByDate` are the inserted bar or members of the
original list. -/
theorem mem_insertByDate {x a : PriceBar} {l : List PriceBar}
    (h : x ∈ insertByDate a l) : x = a ∨ x ∈ l := by
  induction l with
  | nil => simpa [insertByDate] using h
  | cons y ys ih =>
    unfold insertByDate at h
    split at h
    · exact (List.mem_cons.mp h).imp id id
    · rcases List.mem_cons.mp h with rfl | h2
      · exact Or.inr (List.mem_cons_self _ _)
      · rcases ih h2 with h3 | h3
        · exact Or.inl h3
        · exact Or.inr (List.mem_cons_of_mem _ h3)

/-- The date sort permutes; membership is preserved. -/
theorem mem_sortByDate {x : PriceBar} {l : List PriceBar}
    (h : x ∈ sortByDate l) : x ∈ l := by
  induction l with
  | nil => simpa [sortByDate] using h
  | cons y ys ih =>
    rcases mem_insertByDate (h : x ∈ insertByDate y (sortByDate ys)) with h1 | h1
    · exact h1 ▸ List.mem_cons_self _ _
    · exact List.mem_cons_of_mem _ (ih h1)

/-- Every bar of a joined partition is a bar of the price table. -/
theorem mem_partitionBars {p : PriceBar} {prices : List PriceBar}
    {uni : List UniverseRow} {s : String}
    (h : p ∈ partitionBars prices uni s) : p ∈ prices := by
  unfold partitionBars at h
  obtain ⟨p0, hp0, hrep⟩ := List.mem_flatMap.mp h
  rw [List.eq_of_mem_replicate hrep]
  exact (List.mem_filter.mp hp0).1

/-- Every `base` CTE row comes from a bar of the partition at some index. -/
theorem mem_baseRows {b : BaseRow} {ps : List PriceBar}
    (h : b ∈ baseRows ps) :
    ∃ i p, ps.get? i = some p ∧ b = mkBaseRow ps i p := by
  unfold baseRows at h
  obtain ⟨i, hi, hsome⟩ := List.mem_filterMap.mp h
  obtain ⟨p, hp, he⟩ := Option.map_eq_some'.mp hsome
  exact ⟨i, p, hp, he.symm⟩

/-- When no bar of the price table carries the run date, the signals query
returns no rows. -/
theorem allQueryRows_eq_nil (sqrtA : ℚ → ℚ) (rd : Nat)
    (prices : List PriceBar) (uni : List UniverseRow)
    (hnone : ∀ p ∈ prices, p.date ≠ rd) :
    allQueryRows sqrtA rd prices uni = [] := by
  rw [List.eq_nil_iff_forall_not_mem]
  intro q hq
  unfold allQueryRows at hq
  obtain ⟨s, hs, hq2⟩ := List.mem_flatMap.mp hq
  unfold queryRowsOfPartition at hq2
  obtain ⟨j, hj, hsome⟩ := List.mem_filterMap.mp hq2
  obtain ⟨b, hb, he⟩ := Option.map_eq_some'.mp hsome
  have hbmem : b ∈ (baseRows (sortByDate (partitionBars prices uni s))).filter
      (fun x => x.date = rd) := List.get?_mem hb
  have hbf := List.mem_filter.mp hbmem
  have hdate : b.date = rd := of_decide_eq_true hbf.2
  obtain ⟨i, p, hget, hbe⟩ := mem_baseRows hbf.1
  have hpmem : p ∈ prices :=
    mem_partitionBars (mem_sortByDate (List.get?_mem hget))
  have hpd : p.date = rd := by
    rw [hbe] at hdate
    exact hdate
  exact hnone p hpmem hpd

/-- Claim C8: `compute_signals` raises (with the run date in the message)
whenever the curated price table has no row for the resolved run date, and
`resolve_run_date` raises whenever no run date is configured and the curated
price table is empty. -/
theorem C8_empty_raises (sqrtA : ℚ → ℚ) (cfg : Config) (rdArg : Option Nat)
    (prices : List PriceBar) (uni : List UniverseRow) (rd : Nat) :
    (((match rdArg with
        | some d => Except.ok d
        | none => resolve_run_date cfg prices) = Except.ok rd) →
      (∀ p ∈ prices, p.date ≠ rd) →
      compute_signals sqrtA cfg rdArg prices uni =
        Except.error ("No signals rows for run_date=" ++ toString rd)) ∧
    ((cfg.run_date = none ∧ prices = []) →
      resolve_run_date cfg prices =
        Except.error "silver_price_daily is empty; run silver transforms first.") := by
  constructor
  · intro hres hnone
    have hq := allQueryRows_eq_nil sqrtA rd prices uni hnone
    have hat : computeSignalsAt sqrtA cfg rd prices uni =
        Except.error ("No signals rows for run_date=" ++ toString rd) := by
      simp [computeSignalsAt, hq]
    cases rdArg with
    | some d =>
      have hd : d = rd := Except.ok.inj hres
      subst hd
      exact hat
    | none =>
      show (match resolve_run_date cfg prices with
        | Except.error e => Except.error e
        | Except.ok rd' => computeSignalsAt sqrtA cfg rd' prices uni) = _
      rw [show resolve_run_date cfg prices = Except.ok rd from hres]
      exact hat
  · rintro ⟨hcfg, hprices⟩
    subst hprices
    simp [resolve_run_date, hcfg, maxN]

/-- Claim C8, witness: on the empty price table, `compute_signals` with an
explicit run date 5 raises the no-rows error, and `resolve_run_date` with no
configured run date raises the empty-store error. -/
theorem C8_empty_raises_witness :
    compute_signals sqrtQ exCfg (some 5) [] [] =
      Except.error ("No signals rows for run_date=" ++ toString 5) ∧
    resolve_run_date exCfg [] =
      Except.error "silver_price_daily is empty; run silver transforms first." := by
  have h := C8_empty_raises sqrtQ exCfg (some 5) [] [] 5
  exact ⟨h.1 rfl (fun p hp => absurd hp (List.not_mem_nil p)), h.2 ⟨rfl, rfl⟩⟩

/-! ### Claim C9 -/

/-- A symbol's frame is dropped exactly when its fetch failed or was
unusable (no rows). -/
theorem usableFrame_eq_none (fetch : String → Option (List PriceBar))
    (s : String) :
    usableFrame fetch s = none ↔ fetch s = none ∨ fetch s = some [] := by
  unfold usableFrame
  cases hf : fetch s with
  | none => simp
  | some rows => cases rows <;> simp

/-- A usable non-empty fetch keeps its frame verbatim. -/
theorem usableFrame_eq_some (fetch : String → Option (List PriceBar))
    (s : String) (rows : List PriceBar) (hf : fetch s = some rows)
    (hne : rows ≠ []) : usableFrame fetch s = some rows := by
  unfold usableFrame
  rw [hf]
  cases rows with
  | nil => exact absurd rfl hne
  | cons r t => rfl

/-- Claim C9: a failing or unusable fetch excludes only its own symbol — every
other symbol's fetched rows appear in the successful batch — and
`ingest_prices` raises exactly when every symbol's fetch fails or is
unusable. -/
theorem C9_partial_failure (fetch : String → Option (List PriceBar))
    (symbols : List String) :
    (∀ s rows out, s ∈ symbols → fetch s = some rows → rows ≠ [] →
      ingest_prices fetch symbols = Except.ok out → ∀ b ∈ rows, b ∈ out) ∧
    ((∃ e, ingest_prices fetch symbols = Except.error e) ↔
      ∀ s ∈ symbols, fetch s = none ∨ fetch s = some []) := by
  constructor
  · intro s rows out hs hf hne hok b hb
    have hmem : rows ∈ symbols.filterMap (usableFrame fetch) :=
      List.mem_filterMap.mpr ⟨s, hs, usableFrame_eq_some fetch s rows hf hne⟩
    simp only [ingest_prices] at hok
    split at hok
    · exact absurd hok (by simp)
    · rw [← Except.ok.inj hok]
      exact List.mem_flatten.mpr ⟨rows, hmem, hb⟩
  · constructor
    · rintro ⟨e, he⟩
      simp only [ingest_prices] at he
      split at he
      · next hemp =>
        intro s hs
        rw [← usableFrame_eq_none fetch s]
        have hnil : symbols.filterMap (usableFrame fetch) = [] :=
          List.isEmpty_iff.mp hemp
        by_contra hne
        obtain ⟨rows, hrows⟩ := Option.ne_none_iff_exists'.mp hne
        have : rows ∈ symbols.filterMap (usableFrame fetch) :=
          List.mem_filterMap.mpr ⟨s, hs, hrows⟩
        rw [hnil] at this
        exact absurd this (List.not_mem_nil rows)
      · exact absurd he (by simp)
    · intro hall
      refine ⟨"No historical price data ingested for any symbol.", ?_⟩
      have hnil : symbols.filterMap (usableFrame fetch) = [] := by
        rw [List.filterMap_eq_nil]
        intro s hs
        exact (usableFrame_eq_none fetch s).mpr (hall s hs)
      simp only [ingest_prices]
      rw [hnil]
      rfl

/-- A fetch map with one failing symbol among three (the spec's scenario). -/
def exFetch : String → Option (List PriceBar) := fun s =>
  if s = "AAA" then some [mkBar 1 10 11 9 1000]
  else if s = "CCC" then some [mkBar 2 20 21 19 2000]
  else none

/-- Claim C9, witness: with `BBB` failing among three symbols, `AAA`'s bar is
still in the successful batch; and with every fetch failing, the batch
raises. -/
theorem C9_partial_failure_witness :
    mkBar 1 10 11 9 1000 ∈
      [mkBar 1 10 11 9 1000, mkBar 2 20 21 19 2000] ∧
    (∃ e, ingest_prices (fun _ => none) ["AAA"] = Except.error e) := by
  constructor
  · exact (C9_partial_failure exFetch ["AAA", "BBB", "CCC"]).1 "AAA"
      [mkBar 1 10 11 9 1000]
      [mkBar 1 10 11 9 1000, mkBar 2 20 21 19 2000]
      (by decide) rfl (by decide) rfl
      (mkBar 1 10 11 9 1000) (List.mem_singleton_self _)
  · exact ((C9_partial_failure (fun _ => none) ["AAA"]).2).mpr
      (fun s hs => Or.inl rfl)

end DMB
